import Mathlib

/-!
# Verification of the game state machine of the "dattin" word-guessing game

This file gives a shallow embedding of the core game logic
(`src/js/game-manager.js` together with the configuration constants of
`src/js/constants.js` and the pure helpers of `src/js/utils.js`) and proves
the testable properties of the specification against it.

Conventions of the embedding:
* JavaScript numbers that only ever hold non-negative integers are `Nat`;
  the two countdown fields, which are decremented and compared with `<= 0`,
  are `Int`.
* `undefined` results of array indexing are `Option`.
* `Math.random()` driven shuffling is parameterised by an explicit source of
  randomness `rand : Nat → Nat`; at loop index `i` the JavaScript code draws
  `j = Math.floor(Math.random() * (i + 1))`, an arbitrary value in `[0, i]`,
  which we model as `rand i % (i + 1)`.
* Calls into the presentation adapter (`this.ui.*`), the sound manager and
  the DOM (`document.*`, `alert`, intervals) are I/O with no effect on the
  session state and are omitted, except that the `alert` of
  `setupAndStartGame` is returned as an `Option String` so that the
  synchronous error signal is visible in the model.
-/

/-! ## Configuration constants (`src/js/constants.js`) -/

/-- Constant `GAME_CONFIG.COUNTDOWN_DURATION`. -/
def COUNTDOWN_DURATION : Int := 10

/-- Constant `GAME_CONFIG.DEFAULT_ROUND_DURATION`. -/
def DEFAULT_ROUND_DURATION : Nat := 30

/-- Constant `GAME_CONFIG.MAX_ROUNDS_PER_TEAM`. -/
def MAX_ROUNDS_PER_TEAM : Nat := 3

/-- Constant `GAME_CONFIG.TEAM_COLORS`. -/
def TEAM_COLORS : List String :=
  ["var(--team1-color)", "var(--team2-color)", "var(--team3-color)", "var(--team4-color)"]

/-- Constants `GAME_CONFIG.STATES`. -/
inductive GState where
  | WELCOME
  | TEAM_SELECTION
  | GET_READY
  | PLAYING
  | REVIEW
  | ROUND_OVER
  | GAME_OVER
deriving DecidableEq, Repr

/-! ## Data model -/

/-- A raw card as loaded from `data/cards.json` (no category yet). -/
structure Card where
  targetWord : String
  forbiddenWords : List String
deriving DecidableEq, Repr

/-- A card as it sits in the shuffled pool: the deck name is stamped on as
`category` at pool-build time (`{...card, category: deck}`). -/
structure TaggedCard where
  targetWord : String
  forbiddenWords : List String
  category : String
deriving DecidableEq, Repr

/-- Status of a resolved card in the round record. -/
inductive CardStatus where
  | correct
  | skipped
deriving DecidableEq, Repr

/-- One entry of `roundCards`: `{word, status}`. -/
structure RoundEntry where
  word : String
  status : CardStatus
deriving DecidableEq, Repr

/-- A team record `{name, score, color}`; `color` is `TEAM_COLORS[i]`, which
is `undefined` (`none`) when the index is outside the palette. -/
structure Team where
  name : String
  score : Nat
  color : Option String
deriving DecidableEq, Repr

/-- The card data object handed to the `GameManager` constructor:
`{naija: [...], global: [...]}` (see `loadCards` in `src/js/utils.js`). -/
structure CardData where
  naija : List Card
  global : List Card
deriving DecidableEq, Repr

/-- The session state owned by the `GameManager` class.  The timer handles
(`timerInterval`, `countdownInterval`) and the DOM handle `pauseOverlay`
are I/O resources, not session data, and are not part of the state. -/
structure GameManager where
  cardData : CardData
  state : GState
  roundDuration : Nat
  roundScore : Nat
  timeLeft : Int
  countdownTime : Int
  shuffledCards : List TaggedCard
  currentCardIndex : Nat
  roundCards : List RoundEntry
  numberOfTeams : Nat
  teams : List Team
  currentTeamIndex : Nat
  totalRoundsCompleted : Nat
  selectedDecks : List String
  isPaused : Bool
deriving DecidableEq, Repr

/-- The `GameManager` constructor. -/
def initialGame (cd : CardData) : GameManager where
  cardData := cd
  state := GState.WELCOME
  roundDuration := DEFAULT_ROUND_DURATION
  roundScore := 0
  timeLeft := (DEFAULT_ROUND_DURATION : Int)
  countdownTime := COUNTDOWN_DURATION
  shuffledCards := []
  currentCardIndex := 0
  roundCards := []
  numberOfTeams := 0
  teams := []
  currentTeamIndex := 0
  totalRoundsCompleted := 0
  selectedDecks := ["naija"]
  isPaused := false

/-! ## Pure helpers -/

/-- The destructuring swap `[a[i], a[j]] = [a[j], a[i]]` on a list; identity
when either index is out of range (never the case in `shuffleArray`). -/
def listSwap (l : List α) (i j : Nat) : List α :=
  match l[i]?, l[j]? with
  | some a, some b => (l.set i b).set j a
  | _, _ => l

/-- The Fisher–Yates loop of `shuffleArray` (`src/js/utils.js`), running the
index `i` down from `array.length - 1` to `1`.  `rand i % (i + 1)` stands
for `Math.floor(Math.random() * (i + 1))`. -/
def shuffleGo (rand : Nat → Nat) (l : List α) : Nat → List α
  | 0 => l
  | i + 1 => shuffleGo rand (listSwap l (i + 1) (rand (i + 1) % (i + 2))) i

/-- Function `shuffleArray` of `src/js/utils.js`, with the randomness explicit. -/
def shuffleArray (rand : Nat → Nat) (l : List α) : List α :=
  shuffleGo rand l (l.length - 1)

/-- The property lookup `this.cardData[deck]`: defined for the two deck
names, `undefined` otherwise. -/
def lookupDeck (cd : CardData) (deck : String) : Option (List Card) :=
  if deck = "naija" then some cd.naija
  else if deck = "global" then some cd.global
  else none

/-- Stamping the deck name onto each card:
`this.cardData[deck].map(card => ({...card, category: deck}))`. -/
def tagCards (deck : String) (cards : List Card) : List TaggedCard :=
  cards.map fun c => { targetWord := c.targetWord, forbiddenWords := c.forbiddenWords, category := deck }

/-- The `activeCards` accumulation loop shared by `setupAndStartGame` and
`nextCard`: iterate over the selected decks (in insertion order, as a JS
`Set` does) and concatenate the tagged cards of each existing deck. -/
def computeActiveCards (cd : CardData) (decks : List String) : List TaggedCard :=
  decks.foldl
    (fun acc deck =>
      match lookupDeck cd deck with
      | some cards => acc ++ tagCards deck cards
      | none => acc)
    []

/-! ## GameManager methods -/

/-- Method `setRoundDuration(duration)`. -/
def setRoundDuration (g : GameManager) (duration : Nat) : GameManager :=
  { g with roundDuration := duration }

/-- Method `toggleDeck(deck)`.  The JS `Set` is modelled as a duplicate-free list in
insertion order; the returned `Bool` is the method's return value. -/
def toggleDeck (g : GameManager) (deck : String) : GameManager × Bool :=
  if deck ∈ g.selectedDecks then
    if 1 < g.selectedDecks.length then
      ({ g with selectedDecks := g.selectedDecks.erase deck }, true)
    else
      (g, false)
  else
    ({ g with selectedDecks := g.selectedDecks ++ [deck] }, true)

/-- The team-building loop of `setupAndStartGame`: `count` teams with
sequential names, zero scores and `TEAM_COLORS[i]` as colour. -/
def buildTeams (count : Nat) : List Team :=
  (List.range count).map fun i =>
    { name := s!"Team {i + 1}", score := 0, color := TEAM_COLORS[i]? }

/-- Method `startCountdown()`.  The interval callback itself is the separate
`countdownStep`; starting the interval is I/O. -/
def startCountdown (g : GameManager) : GameManager :=
  { g with state := GState.GET_READY, countdownTime := COUNTDOWN_DURATION }

/-- Method `showFinalWinner()`. -/
def showFinalWinner (g : GameManager) : GameManager :=
  { g with state := GState.GAME_OVER }

/-- Method `endRound()`: bank the round score with the team that just played,
advance the turn pointer cyclically, bump the completed-rounds counter and
decide between `GAME_OVER` and `ROUND_OVER`. -/
def endRound (g : GameManager) : GameManager :=
  let g := { g with
    teams := g.teams.modify (fun t => { t with score := t.score + g.roundScore }) g.currentTeamIndex
    currentTeamIndex := (g.currentTeamIndex + 1) % g.numberOfTeams
    totalRoundsCompleted := g.totalRoundsCompleted + 1 }
  if g.numberOfTeams * MAX_ROUNDS_PER_TEAM ≤ g.totalRoundsCompleted then
    showFinalWinner g
  else
    { g with state := GState.ROUND_OVER }

/-- Method `updateCard()`: read the card at the cursor; if it is `undefined` the
round is ended, otherwise the (I/O) display is refreshed. -/
def updateCard (g : GameManager) : GameManager :=
  match g.shuffledCards[g.currentCardIndex]? with
  | none => endRound g
  | some _ => g

/-- Method `startRound()`. -/
def startRound (g : GameManager) : GameManager :=
  updateCard { g with
    state := GState.PLAYING
    isPaused := false
    roundCards := []
    roundScore := 0
    timeLeft := (g.roundDuration : Int) }

/-- The body of the countdown interval of `startCountdown`: decrement, and
start the round when the countdown reaches zero. -/
def countdownStep (g : GameManager) : GameManager :=
  let g := { g with countdownTime := g.countdownTime - 1 }
  if g.countdownTime ≤ 0 then startRound g else g

/-- Method `skipCountdown()`. -/
def skipCountdown (g : GameManager) : GameManager :=
  startRound g

/-- Method `setupAndStartGame(teamCount)`.  The second component is the `alert`
message raised on the empty-deck error path (`none` on success); it is the
synchronous error signal of the call. -/
def setupAndStartGame (g : GameManager) (teamCount : Nat) (rand : Nat → Nat) :
    GameManager × Option String :=
  let g := { g with
    numberOfTeams := teamCount
    teams := buildTeams teamCount
    currentTeamIndex := 0
    totalRoundsCompleted := 0 }
  let activeCards := computeActiveCards g.cardData g.selectedDecks
  if activeCards.length = 0 then
    (g, some "Please select at least one deck!")
  else
    (startCountdown { g with
        shuffledCards := shuffleArray rand activeCards
        currentCardIndex := 0 },
     none)

/-- Method `showReviewScreen()`. -/
def showReviewScreen (g : GameManager) : GameManager :=
  { g with state := GState.REVIEW }

/-- Method `updateTimer()`: the round timer's interval body. -/
def updateTimer (g : GameManager) : GameManager :=
  if g.isPaused then g
  else
    let g := { g with timeLeft := g.timeLeft - 1 }
    if g.timeLeft ≤ 0 then showReviewScreen g else g

/-- Method `nextCard()`: advance the cursor, rebuilding and reshuffling the pool
from the active decks when the cursor runs off the end. -/
def nextCard (g : GameManager) (rand : Nat → Nat) : GameManager :=
  let g := { g with currentCardIndex := g.currentCardIndex + 1 }
  let g :=
    if g.shuffledCards.length ≤ g.currentCardIndex then
      { g with
        shuffledCards := shuffleArray rand (computeActiveCards g.cardData g.selectedDecks)
        currentCardIndex := 0 }
    else g
  updateCard g

/-- Method `handleCorrect()`. -/
def handleCorrect (g : GameManager) (rand : Nat → Nat) : GameManager :=
  match g.shuffledCards[g.currentCardIndex]? with
  | none => g
  | some card =>
      nextCard
        { g with
          roundCards := g.roundCards ++ [{ word := card.targetWord, status := CardStatus.correct }]
          roundScore := g.roundScore + 1 }
        rand

/-- Method `handlePass()`. -/
def handlePass (g : GameManager) (rand : Nat → Nat) : GameManager :=
  match g.shuffledCards[g.currentCardIndex]? with
  | none => g
  | some card =>
      nextCard
        { g with
          roundCards := g.roundCards ++ [{ word := card.targetWord, status := CardStatus.skipped }] }
        rand

/-- Method `togglePause()`. -/
def togglePause (g : GameManager) : GameManager :=
  if g.state ≠ GState.PLAYING then g
  else { g with isPaused := !g.isPaused }

/-- Method `toggleCardStatus(index)`. -/
def toggleCardStatus (g : GameManager) (index : Nat) : GameManager :=
  match g.roundCards[index]? with
  | none => g
  | some item =>
      { g with
        roundCards := g.roundCards.set index
          { item with
            status :=
              if item.status = CardStatus.correct then CardStatus.skipped
              else CardStatus.correct } }

/-- Method `confirmScore()`. -/
def confirmScore (g : GameManager) : GameManager :=
  endRound
    { g with
      roundScore := (g.roundCards.filter fun c => c.status == CardStatus.correct).length }

/-- Method `resetGame()`. -/
def resetGame (g : GameManager) : GameManager :=
  { g with state := GState.TEAM_SELECTION, totalRoundsCompleted := 0 }

/-- Method `quitGame()`: the `confirm(...)` dialog's answer is the `confirmed`
argument. -/
def quitGame (g : GameManager) (confirmed : Bool) : GameManager :=
  if confirmed then
    { g with
      isPaused := false
      state := GState.WELCOME
      totalRoundsCompleted := 0
      currentCardIndex := 0
      roundScore := 0 }
  else g

/-! ## Event layer

The discrete external triggers wired up in the main entry point
(`setupEventListeners`) and by the two intervals.  Each screen's controls
can only fire while that screen is the active one: `renderScreen` in
`src/js/ui-manager.js` marks exactly the screen of the current state as
`active`.  The per-control screen guards below follow the transition table
of the specification, which places each trigger on its screen (the page
markup itself is not part of `src/`).  Modelled from the spec: the
team-count buttons offer team counts of at least 1 (the spec treats a team
count of 0 as a `ConfigurationError` precondition), and deck toggling,
timer-duration choice and team-count choice belong to the team-selection
screen. -/

/-- One external trigger: a user click, a countdown-interval tick or a
round-timer tick. -/
inductive Event where
  | playNow
  | chooseTeams (n : Nat)
  | toggleDeckBtn (deck : String)
  | chooseDuration (d : Nat)
  | skipCountdownBtn
  | countdownTick
  | timerTick
  | correctBtn
  | passBtn
  | pauseBtn
  | toggleCardBtn (i : Nat)
  | confirmBtn
  | nextRoundBtn
  | resetBtn
  | quitBtn (confirmed : Bool)

/-- Route one event to the session, honouring which screen is active. -/
def dispatch (e : Event) (rand : Nat → Nat) (g : GameManager) : GameManager :=
  match e with
  | Event.playNow =>
      if g.state = GState.WELCOME then { g with state := GState.TEAM_SELECTION } else g
  | Event.chooseTeams n =>
      if g.state = GState.TEAM_SELECTION ∧ 1 ≤ n then (setupAndStartGame g n rand).1 else g
  | Event.toggleDeckBtn deck =>
      if g.state = GState.TEAM_SELECTION then (toggleDeck g deck).1 else g
  | Event.chooseDuration d =>
      if g.state = GState.TEAM_SELECTION then setRoundDuration g d else g
  | Event.skipCountdownBtn =>
      if g.state = GState.GET_READY then skipCountdown g else g
  | Event.countdownTick =>
      if g.state = GState.GET_READY then countdownStep g else g
  | Event.timerTick =>
      if g.state = GState.PLAYING then updateTimer g else g
  | Event.correctBtn =>
      if g.state = GState.PLAYING then handleCorrect g rand else g
  | Event.passBtn =>
      if g.state = GState.PLAYING then handlePass g rand else g
  | Event.pauseBtn =>
      togglePause g
  | Event.toggleCardBtn i =>
      if g.state = GState.REVIEW then toggleCardStatus g i else g
  | Event.confirmBtn =>
      if g.state = GState.REVIEW then confirmScore g else g
  | Event.nextRoundBtn =>
      if g.state = GState.ROUND_OVER then startCountdown g else g
  | Event.resetBtn =>
      if g.state = GState.TEAM_SELECTION ∨ g.state = GState.ROUND_OVER ∨
          g.state = GState.GAME_OVER then
        resetGame g
      else g
  | Event.quitBtn confirmed =>
      quitGame g confirmed

/-- Sessions reachable from a freshly constructed manager by any sequence
of events (with arbitrary randomness at each step). -/
inductive Reachable : GameManager → Prop where
  | init (cd : CardData) : Reachable (initialGame cd)
  | step (e : Event) (rand : Nat → Nat) {g : GameManager} :
      Reachable g → Reachable (dispatch e rand g)

/-! ## Structural lemmas -/

@[simp] theorem listSwap_length (l : List α) (i j : Nat) :
    (listSwap l i j).length = l.length := by
  unfold listSwap; split <;> simp

@[simp] theorem shuffleGo_length (rand : Nat → Nat) (l : List α) (n : Nat) :
    (shuffleGo rand l n).length = l.length := by
  induction n generalizing l with
  | zero => rfl
  | succ k ih => simp [shuffleGo, ih]

@[simp] theorem shuffleArray_length (rand : Nat → Nat) (l : List α) :
    (shuffleArray rand l).length = l.length := by
  simp [shuffleArray]

@[simp] theorem buildTeams_length (n : Nat) : (buildTeams n).length = n := by
  simp [buildTeams]

theorem buildTeams_getElem? (n i : Nat) (h : i < n) :
    (buildTeams n)[i]? = some { name := s!"Team {i + 1}", score := 0, color := TEAM_COLORS[i]? } := by
  simp [buildTeams, List.getElem?_map, List.getElem?_range h]

/-- Lemma: `updateCard` is the identity while the cursor is inside the pool. -/
theorem updateCard_of_lt {g : GameManager}
    (h : g.currentCardIndex < g.shuffledCards.length) : updateCard g = g := by
  unfold updateCard
  rw [List.getElem?_eq_getElem h]

/-- Lemma: `nextCard` touches only the pool and the cursor, and leaves the cursor
strictly inside the (non-empty) pool. -/
theorem nextCard_good (g : GameManager) (rand : Nat → Nat)
    (hpool : 0 < (computeActiveCards g.cardData g.selectedDecks).length) :
    ∃ pool idx,
      nextCard g rand = { g with shuffledCards := pool, currentCardIndex := idx } ∧
      idx < pool.length := by
  by_cases h : g.shuffledCards.length ≤ g.currentCardIndex + 1
  · refine ⟨shuffleArray rand (computeActiveCards g.cardData g.selectedDecks), 0, ?_, by simpa⟩
    simp only [nextCard]
    rw [if_pos h]
    exact updateCard_of_lt (by simpa)
  · refine ⟨g.shuffledCards, g.currentCardIndex + 1, ?_, Nat.lt_of_not_le h⟩
    simp only [nextCard]
    rw [if_neg h]
    exact updateCard_of_lt (Nat.lt_of_not_le h)

/-- Lemma: `startRound` while a card is available: pure field reset. -/
theorem startRound_of_lt {g : GameManager}
    (h : g.currentCardIndex < g.shuffledCards.length) :
    startRound g =
      { g with
        state := GState.PLAYING
        isPaused := false
        roundCards := []
        roundScore := 0
        timeLeft := (g.roundDuration : Int) } := by
  unfold startRound
  exact updateCard_of_lt h

/-- Lemma: `handleCorrect` in a live round appends one `correct` entry, bumps the
provisional score, and otherwise only moves the pool/cursor. -/
theorem handleCorrect_good (g : GameManager) (rand : Nat → Nat)
    (hpool : 0 < (computeActiveCards g.cardData g.selectedDecks).length)
    (hidx : g.currentCardIndex < g.shuffledCards.length) :
    ∃ w pool idx,
      handleCorrect g rand =
        { g with
          roundCards := g.roundCards ++ [{ word := w, status := CardStatus.correct }]
          roundScore := g.roundScore + 1
          shuffledCards := pool
          currentCardIndex := idx } ∧
      idx < pool.length := by
  obtain ⟨c, hc⟩ : ∃ c, g.shuffledCards[g.currentCardIndex]? = some c :=
    ⟨_, List.getElem?_eq_getElem hidx⟩
  unfold handleCorrect
  simp only [hc]
  obtain ⟨pool, idx, heq, hlt⟩ :=
    nextCard_good
      { g with
        roundCards := g.roundCards ++ [{ word := c.targetWord, status := CardStatus.correct }]
        roundScore := g.roundScore + 1 }
      rand hpool
  exact ⟨c.targetWord, pool, idx, heq, hlt⟩

/-- Lemma: `handlePass` in a live round appends one `skipped` entry and otherwise
only moves the pool/cursor. -/
theorem handlePass_good (g : GameManager) (rand : Nat → Nat)
    (hpool : 0 < (computeActiveCards g.cardData g.selectedDecks).length)
    (hidx : g.currentCardIndex < g.shuffledCards.length) :
    ∃ w pool idx,
      handlePass g rand =
        { g with
          roundCards := g.roundCards ++ [{ word := w, status := CardStatus.skipped }]
          shuffledCards := pool
          currentCardIndex := idx } ∧
      idx < pool.length := by
  obtain ⟨c, hc⟩ : ∃ c, g.shuffledCards[g.currentCardIndex]? = some c :=
    ⟨_, List.getElem?_eq_getElem hidx⟩
  unfold handlePass
  simp only [hc]
  obtain ⟨pool, idx, heq, hlt⟩ :=
    nextCard_good
      { g with
        roundCards := g.roundCards ++ [{ word := c.targetWord, status := CardStatus.skipped }] }
      rand hpool
  exact ⟨c.targetWord, pool, idx, heq, hlt⟩

/-- Lemma: `endRound` as a single record update. -/
theorem endRound_eq (g : GameManager) :
    endRound g =
      { g with
        teams := g.teams.modify (fun t => { t with score := t.score + g.roundScore })
          g.currentTeamIndex
        currentTeamIndex := (g.currentTeamIndex + 1) % g.numberOfTeams
        totalRoundsCompleted := g.totalRoundsCompleted + 1
        state :=
          if g.numberOfTeams * MAX_ROUNDS_PER_TEAM ≤ g.totalRoundsCompleted + 1 then
            GState.GAME_OVER
          else GState.ROUND_OVER } := by
  simp only [endRound, showFinalWinner]
  split <;> rfl

/-! ## Reachability invariant -/

/-- The phases of a game in progress (a session exists and a round is
pending, running, under review, or just banked). -/
def inPlay (s : GState) : Prop :=
  s = GState.GET_READY ∨ s = GState.PLAYING ∨ s = GState.REVIEW ∨ s = GState.ROUND_OVER

instance (s : GState) : Decidable (inPlay s) := by
  unfold inPlay; infer_instance

/-- The invariant every reachable session satisfies: the selected decks form
a non-empty duplicate-free set, and while a game is in progress the team
registry is consistent, the completed-round counter is below the game-over
bound, the active decks hold at least one card, and the pool cursor is
inside the pool. -/
def Good (g : GameManager) : Prop :=
  g.selectedDecks ≠ [] ∧ g.selectedDecks.Nodup ∧
  (inPlay g.state →
    1 ≤ g.numberOfTeams ∧
    g.totalRoundsCompleted < g.numberOfTeams * MAX_ROUNDS_PER_TEAM ∧
    g.teams.length = g.numberOfTeams ∧
    g.currentTeamIndex < g.numberOfTeams ∧
    0 < (computeActiveCards g.cardData g.selectedDecks).length ∧
    g.currentCardIndex < g.shuffledCards.length)

/-- Lemma: `confirmScore` as a single record update. -/
theorem confirmScore_eq (g : GameManager) :
    confirmScore g =
      { g with
        roundScore := (g.roundCards.filter fun c => c.status == CardStatus.correct).length
        teams := g.teams.modify
          (fun t =>
            { t with
              score := t.score +
                (g.roundCards.filter fun c => c.status == CardStatus.correct).length })
          g.currentTeamIndex
        currentTeamIndex := (g.currentTeamIndex + 1) % g.numberOfTeams
        totalRoundsCompleted := g.totalRoundsCompleted + 1
        state :=
          if g.numberOfTeams * MAX_ROUNDS_PER_TEAM ≤ g.totalRoundsCompleted + 1 then
            GState.GAME_OVER
          else GState.ROUND_OVER } := by
  unfold confirmScore
  rw [endRound_eq]

/-- Lemma: `startRound` from any session whose pool and team registry are
consistent yields a consistent session. -/
theorem startRound_good {g : GameManager}
    (hne : g.selectedDecks ≠ []) (hnodup : g.selectedDecks.Nodup)
    (h1 : 1 ≤ g.numberOfTeams)
    (h2 : g.totalRoundsCompleted < g.numberOfTeams * MAX_ROUNDS_PER_TEAM)
    (h3 : g.teams.length = g.numberOfTeams)
    (h4 : g.currentTeamIndex < g.numberOfTeams)
    (h5 : 0 < (computeActiveCards g.cardData g.selectedDecks).length)
    (h6 : g.currentCardIndex < g.shuffledCards.length) :
    Good (startRound g) := by
  rw [startRound_of_lt h6]
  exact ⟨hne, hnodup, fun _ => ⟨h1, h2, h3, h4, h5, h6⟩⟩

/-- Every event preserves the invariant. -/
theorem dispatch_good (e : Event) (rand : Nat → Nat) {g : GameManager} (hg : Good g) :
    Good (dispatch e rand g) := by
  obtain ⟨hne, hnodup, hplay⟩ := hg
  cases e with
  | playNow =>
      simp only [dispatch]
      split
      · exact ⟨hne, hnodup, by simp [inPlay]⟩
      · exact ⟨hne, hnodup, hplay⟩
  | chooseTeams n =>
      simp only [dispatch]
      split
      case isTrue h =>
        obtain ⟨hsel, hn⟩ := h
        simp only [setupAndStartGame, startCountdown]
        split
        case isTrue hempty =>
          exact ⟨hne, hnodup, by simp [inPlay, hsel]⟩
        case isFalse hempty =>
          refine ⟨hne, hnodup, fun _ => ?_⟩
          refine ⟨hn, Nat.mul_pos hn (by decide), by simp, hn,
            Nat.pos_of_ne_zero hempty, ?_⟩
          simpa using Nat.pos_of_ne_zero hempty
      case isFalse => exact ⟨hne, hnodup, hplay⟩
  | toggleDeckBtn deck =>
      simp only [dispatch]
      split
      case isTrue hsel =>
        unfold toggleDeck
        split
        case isTrue hmem =>
          split
          case isTrue hlen =>
            refine ⟨?_, hnodup.erase deck, by simp [inPlay, hsel]⟩
            have hpos : 0 < (g.selectedDecks.erase deck).length := by
              rw [List.length_erase_of_mem hmem]; omega
            exact List.length_pos.mp hpos
          case isFalse => exact ⟨hne, hnodup, hplay⟩
        case isFalse hmem =>
          refine ⟨?_, ?_, by simp [inPlay, hsel]⟩
          · simp
          · simp [List.nodup_append, hnodup, hmem]
      case isFalse => exact ⟨hne, hnodup, hplay⟩
  | chooseDuration d =>
      simp only [dispatch]
      split
      · exact ⟨hne, hnodup, fun hp => hplay hp⟩
      · exact ⟨hne, hnodup, hplay⟩
  | skipCountdownBtn =>
      simp only [dispatch]
      split
      case isTrue hsel =>
        obtain ⟨h1, h2, h3, h4, h5, h6⟩ := hplay (Or.inl hsel)
        unfold skipCountdown
        exact startRound_good hne hnodup h1 h2 h3 h4 h5 h6
      case isFalse => exact ⟨hne, hnodup, hplay⟩
  | countdownTick =>
      simp only [dispatch]
      split
      case isTrue hsel =>
        obtain ⟨h1, h2, h3, h4, h5, h6⟩ := hplay (Or.inl hsel)
        simp only [countdownStep]
        split
        · exact startRound_good hne hnodup h1 h2 h3 h4 h5 h6
        · exact ⟨hne, hnodup, fun _ => ⟨h1, h2, h3, h4, h5, h6⟩⟩
      case isFalse => exact ⟨hne, hnodup, hplay⟩
  | timerTick =>
      simp only [dispatch]
      split
      case isTrue hsel =>
        obtain ⟨h1, h2, h3, h4, h5, h6⟩ := hplay (Or.inr (Or.inl hsel))
        simp only [updateTimer, showReviewScreen]
        split
        · exact ⟨hne, hnodup, hplay⟩
        · split
          · exact ⟨hne, hnodup, fun _ => ⟨h1, h2, h3, h4, h5, h6⟩⟩
          · exact ⟨hne, hnodup, fun _ => ⟨h1, h2, h3, h4, h5, h6⟩⟩
      case isFalse => exact ⟨hne, hnodup, hplay⟩
  | correctBtn =>
      simp only [dispatch]
      split
      case isTrue hsel =>
        obtain ⟨h1, h2, h3, h4, h5, h6⟩ := hplay (Or.inr (Or.inl hsel))
        obtain ⟨w, pool, idx, heq, hlt⟩ := handleCorrect_good g rand h5 h6
        rw [heq]
        exact ⟨hne, hnodup, fun _ => ⟨h1, h2, h3, h4, h5, hlt⟩⟩
      case isFalse => exact ⟨hne, hnodup, hplay⟩
  | passBtn =>
      simp only [dispatch]
      split
      case isTrue hsel =>
        obtain ⟨h1, h2, h3, h4, h5, h6⟩ := hplay (Or.inr (Or.inl hsel))
        obtain ⟨w, pool, idx, heq, hlt⟩ := handlePass_good g rand h5 h6
        rw [heq]
        exact ⟨hne, hnodup, fun _ => ⟨h1, h2, h3, h4, h5, hlt⟩⟩
      case isFalse => exact ⟨hne, hnodup, hplay⟩
  | pauseBtn =>
      simp only [dispatch]
      unfold togglePause
      split
      · exact ⟨hne, hnodup, hplay⟩
      · exact ⟨hne, hnodup, fun hp => hplay hp⟩
  | toggleCardBtn i =>
      simp only [dispatch]
      split
      case isTrue hsel =>
        unfold toggleCardStatus
        split
        · exact ⟨hne, hnodup, hplay⟩
        · exact ⟨hne, hnodup, fun hp => hplay hp⟩
      case isFalse => exact ⟨hne, hnodup, hplay⟩
  | confirmBtn =>
      simp only [dispatch]
      split
      case isTrue hsel =>
        obtain ⟨h1, h2, h3, h4, h5, h6⟩ := hplay (Or.inr (Or.inr (Or.inl hsel)))
        rw [confirmScore_eq]
        by_cases hcond :
            g.numberOfTeams * MAX_ROUNDS_PER_TEAM ≤ g.totalRoundsCompleted + 1
        · rw [if_pos hcond]
          exact ⟨hne, hnodup, by simp [inPlay]⟩
        · rw [if_neg hcond]
          refine ⟨hne, hnodup, fun _ => ?_⟩
          exact ⟨h1, Nat.lt_of_not_le hcond, (List.length_modify ..).trans h3,
            Nat.mod_lt _ h1, h5, h6⟩
      case isFalse => exact ⟨hne, hnodup, hplay⟩
  | nextRoundBtn =>
      simp only [dispatch]
      split
      case isTrue hsel =>
        obtain ⟨h1, h2, h3, h4, h5, h6⟩ := hplay (Or.inr (Or.inr (Or.inr hsel)))
        exact ⟨hne, hnodup, fun _ => ⟨h1, h2, h3, h4, h5, h6⟩⟩
      case isFalse => exact ⟨hne, hnodup, hplay⟩
  | resetBtn =>
      simp only [dispatch]
      split
      · exact ⟨hne, hnodup, by simp [inPlay, resetGame]⟩
      · exact ⟨hne, hnodup, hplay⟩
  | quitBtn confirmed =>
      simp only [dispatch]
      unfold quitGame
      split
      · exact ⟨hne, hnodup, by simp [inPlay]⟩
      · exact ⟨hne, hnodup, hplay⟩

/-- Every reachable session satisfies the invariant. -/
theorem reachable_good {g : GameManager} (h : Reachable g) : Good g := by
  induction h with
  | init cd =>
      exact ⟨by simp [initialGame], by simp [initialGame], by simp [initialGame, inPlay]⟩
  | step e rand hg ih => exact dispatch_good e rand ih

/-! ## Derived notions used by the properties -/

/-- One correct/pass action during play, carrying the randomness its
handler's possible reshuffle consumes. -/
inductive PlayAct where
  | correct (rand : Nat → Nat)
  | pass (rand : Nat → Nat)

/-- Apply one play action. -/
def applyAct (g : GameManager) : PlayAct → GameManager
  | PlayAct.correct rand => handleCorrect g rand
  | PlayAct.pass rand => handlePass g rand

/-- Apply a sequence of play actions left to right. -/
def applyActs (g : GameManager) : List PlayAct → GameManager
  | [] => g
  | a :: rest => applyActs (applyAct g a) rest

/-- Apply a sequence of review toggles left to right. -/
def applyToggles (g : GameManager) : List Nat → GameManager
  | [] => g
  | i :: rest => applyToggles (toggleCardStatus g i) rest

/-- Each play action in a live round grows the round record by exactly one
entry and keeps the pool servable. -/
theorem applyActs_roundCards (acts : List PlayAct) (g : GameManager)
    (hpool : 0 < (computeActiveCards g.cardData g.selectedDecks).length)
    (hidx : g.currentCardIndex < g.shuffledCards.length) :
    (applyActs g acts).roundCards.length = g.roundCards.length + acts.length := by
  induction acts generalizing g with
  | nil => simp [applyActs]
  | cons a rest ih =>
      cases a with
      | correct rand =>
          obtain ⟨w, pool, idx, heq, hlt⟩ := handleCorrect_good g rand hpool hidx
          simp only [applyActs, applyAct, heq]
          rw [ih { g with
                roundCards := g.roundCards ++ [{ word := w, status := CardStatus.correct }]
                roundScore := g.roundScore + 1
                shuffledCards := pool
                currentCardIndex := idx }
              hpool hlt]
          simp only [List.length_append, List.length_cons, List.length_nil]
          omega
      | pass rand =>
          obtain ⟨w, pool, idx, heq, hlt⟩ := handlePass_good g rand hpool hidx
          simp only [applyActs, applyAct, heq]
          rw [ih { g with
                roundCards := g.roundCards ++ [{ word := w, status := CardStatus.skipped }]
                shuffledCards := pool
                currentCardIndex := idx }
              hpool hlt]
          simp only [List.length_append, List.length_cons, List.length_nil]
          omega

/-- Iterating the cyclic successor `k` times from a residue below `T`. -/
theorem iterate_add_one_mod (T : Nat) (hT : 0 < T) :
    ∀ (k i : Nat), i < T → (fun j => (j + 1) % T)^[k] i = (i + k) % T := by
  intro k
  induction k with
  | zero =>
      intro i hi
      simp [Nat.mod_eq_of_lt hi]
  | succ k ih =>
      intro i hi
      rw [Function.iterate_succ_apply]
      rw [ih _ (Nat.mod_lt _ hT), Nat.mod_add_mod]
      congr 1
      omega

/-! ## Concrete sessions used by the witnesses -/

/-- The single-card deck of the specification's worked scenario. -/
def exampleCardData : CardData :=
  { naija := [{ targetWord := "Lagos", forbiddenWords := ["City", "Naija"] }], global := [] }

/-- Card data whose decks are both empty (failed load). -/
def emptyCardData : CardData := { naija := [], global := [] }

/-- A fixed randomness source. -/
def constRand : Nat → Nat := fun _ => 0

/-- A reachable `REVIEW` session: play now, pick a 1-second round, choose
two teams, skip the countdown, and let the timer expire. -/
def reviewSession : GameManager :=
  dispatch Event.timerTick constRand
    (dispatch Event.skipCountdownBtn constRand
      (dispatch (Event.chooseTeams 2) constRand
        (dispatch (Event.chooseDuration 1) constRand
          (dispatch Event.playNow constRand (initialGame exampleCardData)))))

theorem reviewSession_reachable : Reachable reviewSession := by
  unfold reviewSession
  exact Reachable.step _ _ (Reachable.step _ _ (Reachable.step _ _ (Reachable.step _ _
    (Reachable.step _ _ (Reachable.init _)))))

/-- The worked scenario's pool card. -/
def sampleCard : TaggedCard :=
  { targetWord := "Lagos", forbiddenWords := ["City", "Naija"], category := "naija" }

/-- A mid-round playing session on the one-card pool. -/
def liveSession : GameManager :=
  { initialGame exampleCardData with
    state := GState.PLAYING
    shuffledCards := [sampleCard]
    currentCardIndex := 0 }

/-- The same session, paused. -/
def pausedSession : GameManager := { liveSession with isPaused := true }

/-! ## The specification's properties -/

/-- C1: During play every correct/pass action appends exactly one entry
to the round record, so after `N` actions a fresh round's record has exactly
`N` entries; review toggles never touch the round score, and
`confirmScore()` sets it to the number of entries whose status is `correct`
at confirmation time, whatever the toggle history. -/
theorem roundRecord_and_confirm (g : GameManager) (acts : List PlayAct)
    (hpool : 0 < (computeActiveCards g.cardData g.selectedDecks).length)
    (hidx : g.currentCardIndex < g.shuffledCards.length) :
    (applyActs (startRound g) acts).roundCards.length = acts.length
    ∧ (∀ (s : GameManager) (i : Nat), (toggleCardStatus s i).roundScore = s.roundScore)
    ∧ (∀ (s : GameManager) (ts : List Nat),
        (confirmScore (applyToggles s ts)).roundScore =
          ((applyToggles s ts).roundCards.filter fun c =>
            c.status == CardStatus.correct).length) := by
  refine ⟨?_, ?_, ?_⟩
  · rw [startRound_of_lt hidx]
    rw [applyActs_roundCards acts
      { g with
        state := GState.PLAYING
        isPaused := false
        roundCards := []
        roundScore := 0
        timeLeft := (g.roundDuration : Int) } hpool hidx]
    simp
  · intro s i
    unfold toggleCardStatus
    split <;> rfl
  · intro s ts
    rw [confirmScore_eq]

/-- Witness for C1 on the worked one-card session. -/
theorem roundRecord_and_confirm_witness :
    0 < (computeActiveCards liveSession.cardData liveSession.selectedDecks).length
    ∧ liveSession.currentCardIndex < liveSession.shuffledCards.length
    ∧ (applyActs (startRound liveSession)
        [PlayAct.correct constRand, PlayAct.pass constRand]).roundCards.length = 2
    ∧ (toggleCardStatus liveSession 0).roundScore = liveSession.roundScore
    ∧ (confirmScore (applyToggles liveSession [0])).roundScore =
        ((applyToggles liveSession [0]).roundCards.filter fun c =>
          c.status == CardStatus.correct).length :=
  ⟨by decide, by decide,
   (roundRecord_and_confirm liveSession [PlayAct.correct constRand, PlayAct.pass constRand]
      (by decide) (by decide)).1,
   (roundRecord_and_confirm liveSession [] (by decide) (by decide)).2.1 liveSession 0,
   (roundRecord_and_confirm liveSession [] (by decide) (by decide)).2.2 liveSession [0]⟩

/-- C2: In every reachable `REVIEW` session the completed-round counter
is still below `teamCount * MAX_ROUNDS_PER_TEAM`; confirmation increments it
by one and lands in `GAME_OVER` exactly when the incremented counter equals
`teamCount * MAX_ROUNDS_PER_TEAM` (otherwise in `ROUND_OVER`), and which of
the two is entered does not depend on whose turn would be next. -/
theorem gameOver_exactly_at_bound (g : GameManager)
    (hg : Reachable g) (hs : g.state = GState.REVIEW) :
    g.totalRoundsCompleted < g.numberOfTeams * MAX_ROUNDS_PER_TEAM
    ∧ (confirmScore g).totalRoundsCompleted = g.totalRoundsCompleted + 1
    ∧ ((confirmScore g).state = GState.GAME_OVER ↔
        (confirmScore g).totalRoundsCompleted = g.numberOfTeams * MAX_ROUNDS_PER_TEAM)
    ∧ ((confirmScore g).state ≠ GState.GAME_OVER →
        (confirmScore g).state = GState.ROUND_OVER)
    ∧ (∀ j, (confirmScore { g with currentTeamIndex := j }).state =
        (confirmScore g).state) := by
  obtain ⟨-, -, hplay⟩ := reachable_good hg
  obtain ⟨h1, h2, h3, h4, h5, h6⟩ := hplay (Or.inr (Or.inr (Or.inl hs)))
  simp only [confirmScore_eq]
  by_cases hcond : g.numberOfTeams * MAX_ROUNDS_PER_TEAM ≤ g.totalRoundsCompleted + 1
  · rw [if_pos hcond]
    exact ⟨h2, trivial,
      ⟨fun _ => Nat.le_antisymm (Nat.succ_le_of_lt h2) hcond, fun _ => rfl⟩,
      fun hko => absurd rfl hko, fun j => trivial⟩
  · rw [if_neg hcond]
    refine ⟨h2, trivial, ?_, fun _ => rfl, fun j => trivial⟩
    constructor
    · intro hko
      exact absurd hko (by decide)
    · intro heq
      exact absurd heq (Nat.ne_of_lt (Nat.lt_of_not_le hcond))

/-- Witness for C2 on a reachable review session. -/
theorem gameOver_exactly_at_bound_witness :
    reviewSession.state = GState.REVIEW
    ∧ reviewSession.totalRoundsCompleted <
        reviewSession.numberOfTeams * MAX_ROUNDS_PER_TEAM
    ∧ (confirmScore reviewSession).totalRoundsCompleted =
        reviewSession.totalRoundsCompleted + 1
    ∧ (confirmScore reviewSession).state = GState.ROUND_OVER :=
  ⟨rfl,
   (gameOver_exactly_at_bound reviewSession reviewSession_reachable rfl).1,
   (gameOver_exactly_at_bound reviewSession reviewSession_reachable rfl).2.1,
   (gameOver_exactly_at_bound reviewSession reviewSession_reachable rfl).2.2.2.1 (by decide)⟩

/-- C3: Round confirmation banks the confirmed score with the team that
just played and then advances the turn pointer by one modulo the team
count; the confirmation-induced pointer map, iterated `teamCount` times,
returns every pointer value below the team count to itself. -/
theorem turn_rotation (g : GameManager) (hg : Reachable g)
    (hs : g.state = GState.REVIEW) :
    (confirmScore g).currentTeamIndex = (g.currentTeamIndex + 1) % g.numberOfTeams
    ∧ (confirmScore g).teams[g.currentTeamIndex]? =
        (g.teams[g.currentTeamIndex]?).map (fun t =>
          { t with
            score := t.score +
              (g.roundCards.filter fun c => c.status == CardStatus.correct).length })
    ∧ (∀ i, i < g.numberOfTeams →
        (fun j => (confirmScore { g with currentTeamIndex := j }).currentTeamIndex)^[g.numberOfTeams] i
          = i) := by
  obtain ⟨-, -, hplay⟩ := reachable_good hg
  obtain ⟨h1, h2, h3, h4, h5, h6⟩ := hplay (Or.inr (Or.inr (Or.inl hs)))
  refine ⟨?_, ?_, ?_⟩
  · simp only [confirmScore_eq]
  · simp only [confirmScore_eq]
    simp [List.getElem?_modify]
  · intro i hi
    have hfun :
        (fun j => (confirmScore { g with currentTeamIndex := j }).currentTeamIndex)
          = fun j => (j + 1) % g.numberOfTeams := by
      funext j
      simp only [confirmScore_eq]
    rw [hfun, iterate_add_one_mod _ h1 _ _ hi, Nat.add_mod_right, Nat.mod_eq_of_lt hi]

/-- Witness for C3 on a reachable review session. -/
theorem turn_rotation_witness :
    reviewSession.state = GState.REVIEW
    ∧ (confirmScore reviewSession).currentTeamIndex =
        (reviewSession.currentTeamIndex + 1) % reviewSession.numberOfTeams
    ∧ (fun j => (confirmScore { reviewSession with currentTeamIndex := j }).currentTeamIndex)^[reviewSession.numberOfTeams] 0
        = 0 :=
  ⟨rfl,
   (turn_rotation reviewSession reviewSession_reachable rfl).1,
   (turn_rotation reviewSession reviewSession_reachable rfl).2.2 0 (by decide)⟩

/-- C4: In every reachable session the selected-deck set is non-empty:
toggling the only selected deck is a no-op returning `false`, every other
toggle flips membership and returns `true`, and no event of the game
manager ever empties the selected-deck set. -/
theorem selectedDecks_never_empty (g : GameManager) (hg : Reachable g) (d : String) :
    (d ∈ g.selectedDecks → g.selectedDecks.length = 1 → toggleDeck g d = (g, false))
    ∧ (d ∈ g.selectedDecks → 1 < g.selectedDecks.length →
        (toggleDeck g d).2 = true ∧ d ∉ (toggleDeck g d).1.selectedDecks)
    ∧ (d ∉ g.selectedDecks →
        (toggleDeck g d).2 = true ∧ d ∈ (toggleDeck g d).1.selectedDecks)
    ∧ g.selectedDecks ≠ []
    ∧ (∀ (e : Event) (rand : Nat → Nat), (dispatch e rand g).selectedDecks ≠ []) := by
  have hgood := reachable_good hg
  have hne := hgood.1
  have hnodup := hgood.2.1
  refine ⟨?_, ?_, ?_, hne, ?_⟩
  · intro hmem hlen
    unfold toggleDeck
    rw [if_pos hmem, if_neg (by omega)]
  · intro hmem hlen
    unfold toggleDeck
    rw [if_pos hmem, if_pos hlen]
    exact ⟨rfl, hnodup.not_mem_erase⟩
  · intro hmem
    unfold toggleDeck
    rw [if_neg hmem]
    exact ⟨rfl, by simp⟩
  · intro e rand
    exact (dispatch_good e rand hgood).1

/-- Witness for C4 on the freshly constructed manager. -/
theorem selectedDecks_never_empty_witness :
    "naija" ∈ (initialGame exampleCardData).selectedDecks
    ∧ (initialGame exampleCardData).selectedDecks.length = 1
    ∧ toggleDeck (initialGame exampleCardData) "naija" = (initialGame exampleCardData, false)
    ∧ "global" ∉ (initialGame exampleCardData).selectedDecks
    ∧ (toggleDeck (initialGame exampleCardData) "global").2 = true :=
  ⟨by decide, by decide,
   (selectedDecks_never_empty _ (Reachable.init exampleCardData) "naija").1
     (by decide) (by decide),
   by decide,
   ((selectedDecks_never_empty _ (Reachable.init exampleCardData) "global").2.2.1
     (by decide)).1⟩

/-- C5: Whenever the active decks hold at least one card, drawing never
runs dry: when the cursor runs off the end of the pool, `nextCard` rebuilds
the pool from the active decks (concatenate, then shuffle) and resets the
cursor to `0`; after any `nextCard` the cursor is strictly below the pool
length and the card at the cursor exists. -/
theorem draw_always_available (g : GameManager) (rand : Nat → Nat)
    (hpool : 0 < (computeActiveCards g.cardData g.selectedDecks).length) :
    (g.shuffledCards.length ≤ g.currentCardIndex + 1 →
      (nextCard g rand).shuffledCards =
        shuffleArray rand (computeActiveCards g.cardData g.selectedDecks)
      ∧ (nextCard g rand).currentCardIndex = 0)
    ∧ (nextCard g rand).currentCardIndex < (nextCard g rand).shuffledCards.length
    ∧ ((nextCard g rand).shuffledCards[(nextCard g rand).currentCardIndex]?).isSome
        = true := by
  by_cases hge : g.shuffledCards.length ≤ g.currentCardIndex + 1
  · have hlt : (0 : Nat) <
        (shuffleArray rand (computeActiveCards g.cardData g.selectedDecks)).length := by
      simpa
    have heq : nextCard g rand =
        { g with
          shuffledCards := shuffleArray rand (computeActiveCards g.cardData g.selectedDecks)
          currentCardIndex := 0 } := by
      simp only [nextCard]
      rw [if_pos hge]
      exact updateCard_of_lt hlt
    simp only [heq]
    refine ⟨fun _ => ⟨by trivial, by trivial⟩, hlt, ?_⟩
    rw [List.getElem?_eq_getElem hlt]
    rfl
  · have hlt : g.currentCardIndex + 1 < g.shuffledCards.length := Nat.lt_of_not_le hge
    have heq : nextCard g rand = { g with currentCardIndex := g.currentCardIndex + 1 } := by
      simp only [nextCard]
      rw [if_neg hge]
      exact updateCard_of_lt hlt
    simp only [heq]
    refine ⟨fun hcon => absurd hcon hge, hlt, ?_⟩
    rw [List.getElem?_eq_getElem hlt]
    rfl

/-- Witness for C5: on the one-card pool the advance replenishes. -/
theorem draw_always_available_witness :
    0 < (computeActiveCards liveSession.cardData liveSession.selectedDecks).length
    ∧ (nextCard liveSession constRand).currentCardIndex <
        (nextCard liveSession constRand).shuffledCards.length
    ∧ (nextCard liveSession constRand).shuffledCards =
        shuffleArray constRand
          (computeActiveCards liveSession.cardData liveSession.selectedDecks) :=
  ⟨by decide,
   (draw_always_available liveSession constRand (by decide)).2.1,
   ((draw_always_available liveSession constRand (by decide)).1 (by decide)).1⟩

/-- C6: the method `toggleCardStatus(index)` flips the round-record entry at an
in-range index between `correct` and `skipped` (touching nothing else), is
a silent no-op on any out-of-range index, and the toggle control can only
fire while the review screen — shown exactly in the `REVIEW` phase — is
active. -/
theorem toggleCardStatus_review_only (g : GameManager) (i : Nat) :
    (∀ item, g.roundCards[i]? = some item →
      toggleCardStatus g i =
        { g with
          roundCards := g.roundCards.set i
            { item with
              status :=
                if item.status = CardStatus.correct then CardStatus.skipped
                else CardStatus.correct } })
    ∧ (g.roundCards.length ≤ i → toggleCardStatus g i = g)
    ∧ (∀ rand : Nat → Nat, g.state ≠ GState.REVIEW →
        dispatch (Event.toggleCardBtn i) rand g = g) := by
  refine ⟨?_, ?_, ?_⟩
  · intro item hit
    unfold toggleCardStatus
    rw [hit]
  · intro hlen
    unfold toggleCardStatus
    rw [List.getElem?_eq_none hlen]
  · intro rand hstate
    simp only [dispatch]
    rw [if_neg hstate]

/-- Witness for C6: flipping entry 0, ignoring an out-of-range index, and a
toggle event outside `REVIEW`. -/
theorem toggleCardStatus_review_only_witness :
    toggleCardStatus (initialGame exampleCardData) 3 = initialGame exampleCardData
    ∧ dispatch (Event.toggleCardBtn 0) constRand (initialGame exampleCardData) =
        initialGame exampleCardData
    ∧ toggleCardStatus { liveSession with
          roundCards := [{ word := "Lagos", status := CardStatus.correct }] } 0 =
        { liveSession with
          roundCards := [{ word := "Lagos", status := CardStatus.skipped }] } :=
  ⟨(toggleCardStatus_review_only (initialGame exampleCardData) 3).2.1 (by decide),
   (toggleCardStatus_review_only (initialGame exampleCardData) 0).2.2 constRand (by decide),
   (toggleCardStatus_review_only
      { liveSession with roundCards := [{ word := "Lagos", status := CardStatus.correct }] } 0).1
      { word := "Lagos", status := CardStatus.correct } rfl⟩

/-- C7, counterexample: with five teams, team index 4 gets no colour at
all (`TEAM_COLORS[4]` is `undefined`), not the cyclically wrapped palette
entry `TEAM_COLORS[4 % 4] = TEAM_COLORS[0]`: colour assignment is not
cyclic beyond the palette. -/
theorem team_colors_not_cyclic :
    ((setupAndStartGame (initialGame exampleCardData) 5 constRand).1.teams[4]?).map Team.color
      = some none
    ∧ TEAM_COLORS[4 % TEAM_COLORS.length]? = some "var(--team1-color)"
    ∧ some (none : Option String) ≠ some (some "var(--team1-color)") := by
  refine ⟨by decide, rfl, by decide⟩

/-- C7, amended: for every team count `n`, setup builds `n` teams with
sequential default names `Team 1`, `Team 2`, …, all scores `0` and turn
pointer `0`; team `i` gets palette colour `TEAM_COLORS[i]` when `i` is
inside the palette and no colour (`undefined`) otherwise — the palette is
not reused cyclically. -/
theorem setup_team_records (g : GameManager) (n : Nat) (rand : Nat → Nat) :
    (setupAndStartGame g n rand).1.teams.length = n
    ∧ (setupAndStartGame g n rand).1.currentTeamIndex = 0
    ∧ ∀ i, i < n →
        (setupAndStartGame g n rand).1.teams[i]? =
          some { name := s!"Team {i + 1}", score := 0, color := TEAM_COLORS[i]? } := by
  simp only [setupAndStartGame, startCountdown]
  split
  · exact ⟨by simp, rfl, fun i hi => buildTeams_getElem? n i hi⟩
  · exact ⟨by simp, rfl, fun i hi => buildTeams_getElem? n i hi⟩

/-- Witness for the amended C7. -/
theorem setup_team_records_witness :
    0 < 2
    ∧ (setupAndStartGame (initialGame exampleCardData) 2 constRand).1.teams[0]? =
        some { name := s!"Team {0 + 1}", score := 0, color := TEAM_COLORS[0]? } :=
  ⟨by decide,
   (setup_team_records (initialGame exampleCardData) 2 constRand).2.2 0 (by decide)⟩

/-- C8: While paused, any number of round-timer ticks leaves the session
unchanged (so the remaining time is frozen and the round cannot expire into
`REVIEW`); pause toggling is only effective in the `PLAYING` phase, where it
flips exactly the pause flag; and the first tick after a resume continues
counting from the paused remainder. -/
theorem pause_freezes_timer (g : GameManager) :
    (g.isPaused = true → ∀ n : Nat, updateTimer^[n] g = g)
    ∧ (g.state ≠ GState.PLAYING → togglePause g = g)
    ∧ (g.state = GState.PLAYING → togglePause g = { g with isPaused := !g.isPaused })
    ∧ (g.state = GState.PLAYING → g.isPaused = true →
        (togglePause g).timeLeft = g.timeLeft
        ∧ (updateTimer (togglePause g)).timeLeft = g.timeLeft - 1) := by
  refine ⟨?_, ?_, ?_, ?_⟩
  · intro hp n
    have hone : updateTimer g = g := by
      unfold updateTimer
      rw [hp]
      rfl
    induction n with
    | zero => rfl
    | succ k ih => rw [Function.iterate_succ_apply, hone, ih]
  · intro hstate
    unfold togglePause
    rw [if_pos hstate]
  · intro hstate
    unfold togglePause
    rw [if_neg (not_not_intro hstate)]
  · intro hstate hp
    have ht : togglePause g = { g with isPaused := false } := by
      unfold togglePause
      rw [if_neg (not_not_intro hstate), hp]
      rfl
    rw [ht]
    refine ⟨rfl, ?_⟩
    simp only [updateTimer, showReviewScreen]
    rw [if_neg (by decide : ¬(false = true))]
    split <;> rfl

/-- Witness for C8 on a paused mid-round session. -/
theorem pause_freezes_timer_witness :
    pausedSession.isPaused = true
    ∧ updateTimer^[5] pausedSession = pausedSession
    ∧ pausedSession.state = GState.PLAYING
    ∧ togglePause pausedSession = { pausedSession with isPaused := !pausedSession.isPaused }
    ∧ (updateTimer (togglePause pausedSession)).timeLeft = pausedSession.timeLeft - 1 :=
  ⟨rfl,
   (pause_freezes_timer pausedSession).1 rfl 5,
   rfl,
   (pause_freezes_timer pausedSession).2.2.1 rfl,
   ((pause_freezes_timer pausedSession).2.2.2 rfl rfl).2⟩

/-- C9: When the active decks yield zero cards, `setupAndStartGame`
raises its configuration `alert` synchronously during the call and leaves
the phase where it was: the session does not enter `GET_READY` and the
pre-round countdown is not started. -/
theorem empty_decks_setup_error (g : GameManager) (n : Nat) (rand : Nat → Nat)
    (h : computeActiveCards g.cardData g.selectedDecks = []) :
    (setupAndStartGame g n rand).2 = some "Please select at least one deck!"
    ∧ (setupAndStartGame g n rand).1.state = g.state
    ∧ (setupAndStartGame g n rand).1.countdownTime = g.countdownTime
    ∧ (g.state ≠ GState.GET_READY →
        (setupAndStartGame g n rand).1.state ≠ GState.GET_READY) := by
  have hlen : (computeActiveCards g.cardData g.selectedDecks).length = 0 := by
    rw [h]
    rfl
  simp only [setupAndStartGame]
  rw [if_pos hlen]
  exact ⟨rfl, rfl, rfl, fun hh => hh⟩

/-- Witness for C9 on a session whose card data failed to load. -/
theorem empty_decks_setup_error_witness :
    computeActiveCards (initialGame emptyCardData).cardData
        (initialGame emptyCardData).selectedDecks = []
    ∧ (setupAndStartGame (initialGame emptyCardData) 2 constRand).2 =
        some "Please select at least one deck!"
    ∧ (setupAndStartGame (initialGame emptyCardData) 2 constRand).1.state =
        (initialGame emptyCardData).state :=
  ⟨rfl,
   (empty_decks_setup_error (initialGame emptyCardData) 2 constRand rfl).1,
   (empty_decks_setup_error (initialGame emptyCardData) 2 constRand rfl).2.1⟩

/-- C10: the method `setupAndStartGame` is not atomic on the empty-deck error: even
when it signals the error it has already overwritten the team list (fresh
teams, all scores 0), the team count, the turn pointer and the
completed-round counter, while the phase and the card pool are left as they
were — a partially mutated session. -/
theorem setup_error_partial_mutation (g : GameManager) (n : Nat) (rand : Nat → Nat)
    (h : computeActiveCards g.cardData g.selectedDecks = []) :
    (setupAndStartGame g n rand).1.teams = buildTeams n
    ∧ (∀ t ∈ (setupAndStartGame g n rand).1.teams, t.score = 0)
    ∧ (setupAndStartGame g n rand).1.numberOfTeams = n
    ∧ (setupAndStartGame g n rand).1.currentTeamIndex = 0
    ∧ (setupAndStartGame g n rand).1.totalRoundsCompleted = 0
    ∧ (setupAndStartGame g n rand).1.state = g.state
    ∧ (setupAndStartGame g n rand).1.shuffledCards = g.shuffledCards
    ∧ (setupAndStartGame g n rand).2.isSome = true := by
  have hlen : (computeActiveCards g.cardData g.selectedDecks).length = 0 := by
    rw [h]
    rfl
  simp only [setupAndStartGame]
  rw [if_pos hlen]
  refine ⟨rfl, ?_, rfl, rfl, rfl, rfl, rfl, rfl⟩
  intro t ht
  simp only [buildTeams, List.mem_map] at ht
  obtain ⟨i, -, hi⟩ := ht
  rw [← hi]

/-- Witness for C10 on a session whose card data failed to load. -/
theorem setup_error_partial_mutation_witness :
    computeActiveCards (initialGame emptyCardData).cardData
        (initialGame emptyCardData).selectedDecks = []
    ∧ (setupAndStartGame (initialGame emptyCardData) 3 constRand).1.numberOfTeams = 3
    ∧ (setupAndStartGame (initialGame emptyCardData) 3 constRand).1.teams = buildTeams 3
    ∧ (setupAndStartGame (initialGame emptyCardData) 3 constRand).1.state =
        (initialGame emptyCardData).state
    ∧ (setupAndStartGame (initialGame emptyCardData) 3 constRand).2.isSome = true :=
  ⟨rfl,
   (setup_error_partial_mutation (initialGame emptyCardData) 3 constRand rfl).2.2.1,
   (setup_error_partial_mutation (initialGame emptyCardData) 3 constRand rfl).1,
   (setup_error_partial_mutation (initialGame emptyCardData) 3 constRand rfl).2.2.2.2.2.1,
   (setup_error_partial_mutation (initialGame emptyCardData) 3 constRand rfl).2.2.2.2.2.2.2⟩
